import Mathlib

/-!
# Verification of the SU2 `CTableFluid` tabulated equation-of-state evaluator

Shallow embedding of `SU2_CFD/src/fluid/CTableFluid.cpp`.

Modelling conventions:
* `su2double` (a C++ `double`) is modelled as `ℚ`, i.e. exact arithmetic with
  no rounding.  The literals `1e-9`, `1.01` and `0.01` are modelled by the
  exact rationals `1/1000000000`, `101/100` and `-1/100`.
* Division in `ℚ` is total with `a / 0 = 0`.  The IEEE-754 non-finite
  behaviour of the degenerate secant step is treated separately with the
  `FVal` type below, which extends `ℚ` with signed infinities and NaN.
* The class constants `Nx`, `Ny`, the axis bound pairs `Rho`, `De`, the
  flattened property tables and the saturation coefficients `coefesat` are
  declared in the header `CTableFluid.hpp` (not part of the translated
  sources); they are carried as fields of the `CTableFluid` structure, with
  the spec invariants (`Nx, Ny ≥ 2`, strictly increasing axes) taken as
  hypotheses where needed.  Flattened tables are total maps `ℤ → ℚ`; the
  in-bounds property of every access is itself one of the verified claims.
* The calls `pow(rho, ONE2)` and `pow(rho, ONE3)` go to the C math library,
  which is external to the repository; they are carried as the abstract
  fields `powHalf` and `powThird`.
* The `while` loop of `rootFunc` runs while `n < 20`; it is translated by
  structural recursion on the remaining fuel `20 - n`.
-/

/-- The C cast `(int) d` of a `double`: truncation toward zero. -/
def truncToInt (q : ℚ) : ℤ :=
  if q < 0 then -⌊-q⌋ else ⌊q⌋

/-- `min(max(0, i), N-2)`: the clamping of a floor index performed by
`CTableFluid::interpolateTable` (all in C `int` arithmetic). -/
def clampIdx (N : ℕ) (i : ℤ) : ℤ :=
  min (max 0 i) ((N : ℤ) - 2)

/-- `(xi-x[0])/(x[1]-x[0]) * (Nx-1)`: the fractional grid index assuming
equal spacing, from `CTableFluid::interpolateTable`. -/
def fracIx (xi : ℚ) (x : Fin 2 → ℚ) (N : ℕ) : ℚ :=
  (xi - x 0) / (x 1 - x 0) * ((N : ℚ) - 1)

/-- The immutable data of a `CTableFluid` object: grid sizes, axis bounds,
saturation coefficients, the eleven flattened property tables, the external
power functions, and the construction-time `ComputeEntropy` flag. -/
structure CTableFluid where
  Nx : ℕ
  Ny : ℕ
  Rho : Fin 2 → ℚ
  De : Fin 2 → ℚ
  coefesat : Fin 4 → ℚ
  P_rhoDe : ℤ → ℚ
  T_rhoDe : ℤ → ℚ
  h_rhoDe : ℤ → ℚ
  s_rhoDe : ℤ → ℚ
  cv_rhoDe : ℤ → ℚ
  cp_rhoDe : ℤ → ℚ
  a2_rhoDe : ℤ → ℚ
  dPdrho_e_rhoDe : ℤ → ℚ
  dPde_rho_rhoDe : ℤ → ℚ
  dTdrho_e_rhoDe : ℤ → ℚ
  dTde_rho_rhoDe : ℤ → ℚ
  powHalf : ℚ → ℚ
  powThird : ℚ → ℚ
  ComputeEntropy : Bool

/-- `CTableFluid::esat_rho`: the saturation-energy polynomial
`coefesat[0] + coefesat[1]*rho + coefesat[2]*pow(rho,ONE2)
 + coefesat[3]*pow(rho,ONE3)`. -/
def esat_rho (c : CTableFluid) (rho : ℚ) : ℚ :=
  c.coefesat 0 + c.coefesat 1 * rho + c.coefesat 2 * c.powHalf rho +
    c.coefesat 3 * c.powThird rho

/-- `CTableFluid::interpolateTable`: bilinear interpolation on the flattened
row-major table `z` over the axes `x` (size `c.Nx`) and `y` (size `c.Ny`),
with the floor indices clamped into `[0, Nx-2]` and `[0, Ny-2]`. -/
def interpolateTable (c : CTableFluid) (xi yi : ℚ) (x y : Fin 2 → ℚ)
    (z : ℤ → ℚ) : ℚ :=
  let ix := fracIx xi x c.Nx
  let iy := fracIx yi y c.Ny
  let ixl := clampIdx c.Nx (truncToInt ix)
  let ixr := ixl + 1
  let iyl := clampIdx c.Ny (truncToInt iy)
  let iyr := iyl + 1
  let zil := z (ixl * c.Ny + iyl) +
    (iy - (iyl : ℚ)) * (z (ixl * c.Ny + iyr) - z (ixl * c.Ny + iyl))
  let zir := z (ixr * c.Ny + iyl) +
    (iy - (iyl : ℚ)) * (z (ixr * c.Ny + iyr) - z (ixr * c.Ny + iyl))
  zil + (ix - (ixl : ℚ)) * (zir - zil)

/-- The body of the `while` loop of `CTableFluid::rootFunc`, by structural
recursion on the remaining fuel `20 - n`.  State `(x, y, x0)` is the triple
of mutable locals of the source (`y = func(x)` is an invariant). -/
def rootFuncLoop (f : ℚ → ℚ) (fuel : ℕ) (x y x0 : ℚ) : ℚ :=
  match fuel with
  | 0 => x
  | fuel' + 1 =>
    if |y| > 1 / 1000000000 * x0 then
      rootFuncLoop f fuel' x0 (f x0) (x0 - f x0 * (x - x0) / (y - f x0))
    else x

/-- `CTableFluid::rootFunc`: secant iteration started from the seed `x0`
and the 1%-perturbed second point `1.01*x0`, capped at 20 iterations. -/
def rootFunc (x0 : ℚ) (f : ℚ → ℚ) : ℚ :=
  rootFuncLoop f 20 x0 (f x0) (101 / 100 * x0)

/-- Instrumented variant of `rootFuncLoop` returning the number of loop
iterations executed together with the final values of `(x, y, x0)`.  It is
proved below to return the same `x` as `rootFuncLoop`. -/
def rootFuncLoopS (f : ℚ → ℚ) (fuel : ℕ) (x y x0 : ℚ) : ℕ × ℚ × ℚ × ℚ :=
  match fuel with
  | 0 => (0, x, y, x0)
  | fuel' + 1 =>
    if |y| > 1 / 1000000000 * x0 then
      let r := rootFuncLoopS f fuel' x0 (f x0) (x0 - f x0 * (x - x0) / (y - f x0))
      (r.1 + 1, r.2)
    else (0, x, y, x0)

/-- Instrumented variant of `rootFunc` (iteration count and final state). -/
def rootFuncS (x0 : ℚ) (f : ℚ → ℚ) : ℕ × ℚ × ℚ × ℚ :=
  rootFuncLoopS f 20 x0 (f x0) (101 / 100 * x0)

/-- One secant step on the state triple `(x, y, x0)` of `rootFunc`:
`y0 = func(x0); dy = y - y0; dx = x - x0; y = y0; x = x0; x0 = x0 - y0*dx/dy`. -/
def secantStep (f : ℚ → ℚ) (s : ℚ × ℚ × ℚ) : ℚ × ℚ × ℚ :=
  (s.2.2, f s.2.2, s.2.2 - f s.2.2 * (s.1 - s.2.2) / (s.2.1 - f s.2.2))

/-- `CTableFluid::P_rhoe`. -/
def P_rhoe (c : CTableFluid) (rhoi ei : ℚ) : ℚ :=
  interpolateTable c rhoi (ei - esat_rho c rhoi) c.Rho c.De c.P_rhoDe

/-- `CTableFluid::T_rhoe`. -/
def T_rhoe (c : CTableFluid) (rhoi ei : ℚ) : ℚ :=
  interpolateTable c rhoi (ei - esat_rho c rhoi) c.Rho c.De c.T_rhoDe

/-- `CTableFluid::h_rhoe`. -/
def h_rhoe (c : CTableFluid) (rhoi ei : ℚ) : ℚ :=
  interpolateTable c rhoi (ei - esat_rho c rhoi) c.Rho c.De c.h_rhoDe

/-- `CTableFluid::s_rhoe`. -/
def s_rhoe (c : CTableFluid) (rhoi ei : ℚ) : ℚ :=
  interpolateTable c rhoi (ei - esat_rho c rhoi) c.Rho c.De c.s_rhoDe

/-- `CTableFluid::cv_rhoe`. -/
def cv_rhoe (c : CTableFluid) (rhoi ei : ℚ) : ℚ :=
  interpolateTable c rhoi (ei - esat_rho c rhoi) c.Rho c.De c.cv_rhoDe

/-- `CTableFluid::cp_rhoe`. -/
def cp_rhoe (c : CTableFluid) (rhoi ei : ℚ) : ℚ :=
  interpolateTable c rhoi (ei - esat_rho c rhoi) c.Rho c.De c.cp_rhoDe

/-- `CTableFluid::a2_rhoe`. -/
def a2_rhoe (c : CTableFluid) (rhoi ei : ℚ) : ℚ :=
  interpolateTable c rhoi (ei - esat_rho c rhoi) c.Rho c.De c.a2_rhoDe

/-- `CTableFluid::dPdrho_e_rhoe`. -/
def dPdrho_e_rhoe (c : CTableFluid) (rhoi ei : ℚ) : ℚ :=
  interpolateTable c rhoi (ei - esat_rho c rhoi) c.Rho c.De c.dPdrho_e_rhoDe

/-- `CTableFluid::dPde_rho_rhoe`. -/
def dPde_rho_rhoe (c : CTableFluid) (rhoi ei : ℚ) : ℚ :=
  interpolateTable c rhoi (ei - esat_rho c rhoi) c.Rho c.De c.dPde_rho_rhoDe

/-- `CTableFluid::dTdrho_e_rhoe`. -/
def dTdrho_e_rhoe (c : CTableFluid) (rhoi ei : ℚ) : ℚ :=
  interpolateTable c rhoi (ei - esat_rho c rhoi) c.Rho c.De c.dTdrho_e_rhoDe

/-- `CTableFluid::dTde_rho_rhoe`. -/
def dTde_rho_rhoe (c : CTableFluid) (rhoi ei : ℚ) : ℚ :=
  interpolateTable c rhoi (ei - esat_rho c rhoi) c.Rho c.De c.dTde_rho_rhoDe

/-- `CTableFluid::e_rhoP`: invert the pressure table along the energy axis
at fixed density, seeded at `esat_rho(rhoi) + De[0]`. -/
def e_rhoP (c : CTableFluid) (rhoi Pi : ℚ) : ℚ :=
  rootFunc (esat_rho c rhoi + c.De 0) (fun x => P_rhoe c rhoi x - Pi)

/-- `CTableFluid::e_rhoT`. -/
def e_rhoT (c : CTableFluid) (rhoi Ti : ℚ) : ℚ :=
  rootFunc (esat_rho c rhoi + c.De 0) (fun x => T_rhoe c rhoi x - Ti)

/-- `CTableFluid::e_rhoh`. -/
def e_rhoh (c : CTableFluid) (rhoi hi : ℚ) : ℚ :=
  rootFunc (esat_rho c rhoi + c.De 0) (fun x => h_rhoe c rhoi x - hi)

/-- `CTableFluid::rho_PT`: outer root-find over density seeded at `Rho[0]`. -/
def rho_PT (c : CTableFluid) (Pi Ti : ℚ) : ℚ :=
  rootFunc (c.Rho 0) (fun x => T_rhoe c x (e_rhoP c x Pi) - Ti)

/-- `CTableFluid::rho_Ps`. -/
def rho_Ps (c : CTableFluid) (Pi si : ℚ) : ℚ :=
  rootFunc (c.Rho 0) (fun x => s_rhoe c x (e_rhoP c x Pi) - si)

/-- `CTableFluid::rho_hs`. -/
def rho_hs (c : CTableFluid) (hi si : ℚ) : ℚ :=
  rootFunc (c.Rho 0) (fun x => s_rhoe c x (e_rhoh c x hi) - si)

/-- The mutable fluid-state record of the fluid model (fields inherited
from `CFluidModel` that `CTableFluid` writes or leaves alone). -/
structure FluidState where
  Density : ℚ
  StaticEnergy : ℚ
  Pressure : ℚ
  Temperature : ℚ
  Entropy : ℚ
  SoundSpeed2 : ℚ
  dPdrho_e : ℚ
  dPde_rho : ℚ
  dTdrho_e : ℚ
  dTde_rho : ℚ
  Cv : ℚ
  Cp : ℚ

/-- `CTableFluid::SetTDState_rhoe`: the cheap set-state call.  Entropy is
written only when the `ComputeEntropy` flag was set at construction. -/
def SetTDState_rhoe (c : CTableFluid) (s : FluidState) (rho e : ℚ) :
    FluidState where
  Density := rho
  StaticEnergy := e
  Pressure := P_rhoe c rho e
  Temperature := T_rhoe c rho e
  Entropy := if c.ComputeEntropy then s_rhoe c rho e else s.Entropy
  SoundSpeed2 := a2_rhoe c rho e
  dPdrho_e := dPdrho_e_rhoe c rho e
  dPde_rho := dPde_rho_rhoe c rho e
  dTdrho_e := dTdrho_e_rhoe c rho e
  dTde_rho := dTde_rho_rhoe c rho e
  Cv := cv_rhoe c rho e
  Cp := cp_rhoe c rho e

/-- `CTableFluid::SetEnergy_Prho`: writes only `StaticEnergy`. -/
def SetEnergy_Prho (c : CTableFluid) (s : FluidState) (P rho : ℚ) :
    FluidState :=
  { s with StaticEnergy := e_rhoP c rho P }

/-- `CTableFluid::SetTDState_Prho`. -/
def SetTDState_Prho (c : CTableFluid) (s : FluidState) (P rho : ℚ) :
    FluidState :=
  SetTDState_rhoe c s rho (e_rhoP c rho P)

/-- `CTableFluid::SetTDState_rhoT`. -/
def SetTDState_rhoT (c : CTableFluid) (s : FluidState) (rho T : ℚ) :
    FluidState :=
  SetTDState_rhoe c s rho (e_rhoT c rho T)

/-- `CTableFluid::SetTDState_rhoh`. -/
def SetTDState_rhoh (c : CTableFluid) (s : FluidState) (rho h : ℚ) :
    FluidState :=
  SetTDState_rhoe c s rho (e_rhoh c rho h)

/-- `CTableFluid::SetTDState_PT`: the expensive set-state call. -/
def SetTDState_PT (c : CTableFluid) (s : FluidState) (P T : ℚ) :
    FluidState :=
  SetTDState_Prho c s P (rho_PT c P T)

/-- `CTableFluid::SetTDState_Ps`. -/
def SetTDState_Ps (c : CTableFluid) (s : FluidState) (P sv : ℚ) :
    FluidState :=
  SetTDState_Prho c s P (rho_Ps c P sv)

/-- `CTableFluid::SetTDState_hs`. -/
def SetTDState_hs (c : CTableFluid) (s : FluidState) (h sv : ℚ) :
    FluidState :=
  SetTDState_rhoh c s (rho_hs c h sv) h

/-! ## Auxiliary lemmas about the secant loop -/

lemma rootFuncLoop_stop (f : ℚ → ℚ) (fuel' : ℕ) (x y x0 : ℚ)
    (h : ¬ |y| > 1 / 1000000000 * x0) :
    rootFuncLoop f (fuel' + 1) x y x0 = x := by
  simp only [rootFuncLoop, if_neg h]

lemma rootFuncLoop_step (f : ℚ → ℚ) (fuel' : ℕ) (x y x0 : ℚ)
    (h : |y| > 1 / 1000000000 * x0) :
    rootFuncLoop f (fuel' + 1) x y x0 =
      rootFuncLoop f fuel' x0 (f x0) (x0 - f x0 * (x - x0) / (y - f x0)) := by
  simp only [rootFuncLoop, if_pos h]

lemma rootFuncLoopS_stop (f : ℚ → ℚ) (fuel' : ℕ) (x y x0 : ℚ)
    (h : ¬ |y| > 1 / 1000000000 * x0) :
    rootFuncLoopS f (fuel' + 1) x y x0 = (0, x, y, x0) := by
  simp only [rootFuncLoopS, if_neg h]

lemma rootFuncLoopS_step (f : ℚ → ℚ) (fuel' : ℕ) (x y x0 : ℚ)
    (h : |y| > 1 / 1000000000 * x0) :
    rootFuncLoopS f (fuel' + 1) x y x0 =
      ((rootFuncLoopS f fuel' x0 (f x0) (x0 - f x0 * (x - x0) / (y - f x0))).1 + 1,
       (rootFuncLoopS f fuel' x0 (f x0) (x0 - f x0 * (x - x0) / (y - f x0))).2) := by
  simp only [rootFuncLoopS, if_pos h]

lemma rootFuncLoopS_fst_eq (f : ℚ → ℚ) :
    ∀ (fuel : ℕ) (x y x0 : ℚ),
      (rootFuncLoopS f fuel x y x0).2.1 = rootFuncLoop f fuel x y x0 := by
  intro fuel
  induction fuel with
  | zero => intro x y x0; rfl
  | succ fuel' ih =>
    intro x y x0
    by_cases h : |y| > 1 / 1000000000 * x0
    · rw [rootFuncLoopS_step f fuel' x y x0 h, rootFuncLoop_step f fuel' x y x0 h]
      exact ih _ _ _
    · rw [rootFuncLoopS_stop f fuel' x y x0 h, rootFuncLoop_stop f fuel' x y x0 h]

lemma rootFuncLoopS_y_invariant (f : ℚ → ℚ) :
    ∀ (fuel : ℕ) (x y x0 : ℚ), y = f x →
      (rootFuncLoopS f fuel x y x0).2.2.1 = f ((rootFuncLoopS f fuel x y x0).2.1) := by
  intro fuel
  induction fuel with
  | zero => intro x y x0 hyx; exact hyx
  | succ fuel' ih =>
    intro x y x0 hyx
    by_cases h : |y| > 1 / 1000000000 * x0
    · rw [rootFuncLoopS_step f fuel' x y x0 h]
      exact ih _ _ _ rfl
    · rw [rootFuncLoopS_stop f fuel' x y x0 h]
      exact hyx

lemma rootFuncLoopS_converged (f : ℚ → ℚ) :
    ∀ (fuel : ℕ) (x y x0 : ℚ), (rootFuncLoopS f fuel x y x0).1 < fuel →
      |(rootFuncLoopS f fuel x y x0).2.2.1| ≤
        1 / 1000000000 * (rootFuncLoopS f fuel x y x0).2.2.2 := by
  intro fuel
  induction fuel with
  | zero => intro x y x0 h; exact absurd h (by simp)
  | succ fuel' ih =>
    intro x y x0 h
    by_cases hc : |y| > 1 / 1000000000 * x0
    · rw [rootFuncLoopS_step f fuel' x y x0 hc] at h ⊢
      exact ih _ _ _ (by omega)
    · rw [rootFuncLoopS_stop f fuel' x y x0 hc]
      exact not_lt.mp hc

lemma rootFuncLoop_eq_iterate (f : ℚ → ℚ) :
    ∀ (fuel : ℕ) (x y x0 : ℚ), ∃ k, k ≤ fuel ∧
      rootFuncLoop f fuel x y x0 = ((secantStep f)^[k] (x, y, x0)).1 := by
  intro fuel
  induction fuel with
  | zero => intro x y x0; exact ⟨0, Nat.le_refl 0, rfl⟩
  | succ fuel' ih =>
    intro x y x0
    by_cases h : |y| > 1 / 1000000000 * x0
    · obtain ⟨k, hk, he⟩ := ih x0 (f x0) (x0 - f x0 * (x - x0) / (y - f x0))
      refine ⟨k + 1, by omega, ?_⟩
      rw [rootFuncLoop_step f fuel' x y x0 h, he, Function.iterate_succ_apply]
      rfl
    · exact ⟨0, Nat.zero_le _, rootFuncLoop_stop f fuel' x y x0 h⟩

/-! ## Claims C1 and C2: the secant root finder -/

/-- C1 (counterexample): the convergence test of `rootFunc` is NOT
`|f(x_n)| ≤ 1e-9 * x0_initial`.  For the seed `x0 = 1` and the residual
`f t = t - 1 + 1005e-12` we have `|f(1)| = 1005e-12 > 1e-9 * 1`, so under
the claimed test the iteration would not yet be converged; yet the code
performs zero loop iterations and returns the seed unchanged, because its
actual test compares against `1e-9` times the mutated variable `x0`, which
already holds `1.01 * 1` at the first check. -/
theorem rootFunc_seed_tolerance_counterexample :
    (rootFuncS 1 (fun t => t - 1 + 1005 / 1000000000000)).1 = 0 ∧
    rootFunc 1 (fun t => t - 1 + 1005 / 1000000000000) = 1 ∧
    ¬ |(fun t : ℚ => t - 1 + 1005 / 1000000000000) 1| ≤ 1 / 1000000000 * 1 := by
  have hy : ((fun t : ℚ => t - 1 + 1005 / 1000000000000) 1) =
      1005 / 1000000000000 := by norm_num
  have habs : |(1005 : ℚ) / 1000000000000| = 1005 / 1000000000000 :=
    abs_of_nonneg (by norm_num)
  have h : ¬ |(1005 : ℚ) / 1000000000000| > 1 / 1000000000 * (101 / 100 * 1) := by
    rw [habs]; norm_num
  refine ⟨?_, ?_, ?_⟩
  · unfold rootFuncS
    rw [show (20 : ℕ) = 19 + 1 from rfl, hy, rootFuncLoopS_stop _ _ _ _ _ h]
  · unfold rootFunc
    rw [show (20 : ℕ) = 19 + 1 from rfl, hy, rootFuncLoop_stop _ _ _ _ _ h]
  · rw [hy, habs]; norm_num

/-- C1 (amended): the secant iteration in `rootFunc` stops as converged
exactly when `|f(x_n)| ≤ 1e-9 * x0_cur`, where `x0_cur` is the current value
of the overwritten seed variable `x0` — `1.01 * x0_initial` at the first
check and the most recently computed secant candidate thereafter (the
iteration also stops unconditionally once the 20-iteration cap is hit). -/
theorem rootFunc_tolerance_tracks_current_x0 (f : ℚ → ℚ) (x0seed : ℚ)
    (fuel : ℕ) (x y x0 : ℚ) :
    rootFunc x0seed f = rootFuncLoop f 20 x0seed (f x0seed) (101 / 100 * x0seed) ∧
    rootFuncLoop f (fuel + 1) x y x0 =
      (if |y| > 1 / 1000000000 * x0 then
        rootFuncLoop f fuel x0 (f x0) (x0 - f x0 * (x - x0) / (y - f x0))
      else x) ∧
    rootFuncLoop f 0 x y x0 = x :=
  ⟨rfl, rfl, rfl⟩

/-- C2: `rootFunc` always terminates, performing at most 20 secant loop
iterations, and returns the `x` component of the state reached by the last
executed iteration — for every seed and every residual function, with no
error path.  (The embedding is a total function; the conclusion exhibits the
returned value as the result of `k ≤ 20` secant steps.) -/
theorem rootFunc_terminates_within_20_iterations (x0 : ℚ) (f : ℚ → ℚ) :
    ∃ k, k ≤ 20 ∧
      rootFunc x0 f = ((secantStep f)^[k] (x0, f x0, 101 / 100 * x0)).1 :=
  rootFuncLoop_eq_iterate f 20 x0 (f x0) (101 / 100 * x0)

/-! ## Claim C7: round-trip inversion -/

/-- A concrete `CTableFluid` instance used for counterexamples and
witnesses: a 2×2 grid with `Rho = (1,2)`, `De = (1,2)`, zero saturation
coefficients, a constant pressure table `P ≡ 5`, and all other tables zero. -/
def cEx : CTableFluid where
  Nx := 2
  Ny := 2
  Rho := fun k => if k = 0 then 1 else 2
  De := fun k => if k = 0 then 1 else 2
  coefesat := fun _ => 0
  P_rhoDe := fun _ => 5
  T_rhoDe := fun _ => 0
  h_rhoDe := fun _ => 0
  s_rhoDe := fun _ => 0
  cv_rhoDe := fun _ => 0
  cp_rhoDe := fun _ => 0
  a2_rhoDe := fun _ => 0
  dPdrho_e_rhoDe := fun _ => 0
  dPde_rho_rhoDe := fun _ => 0
  dTdrho_e_rhoDe := fun _ => 0
  dTde_rho_rhoDe := fun _ => 0
  powHalf := fun _ => 0
  powThird := fun _ => 0
  ComputeEntropy := false

lemma esat_rho_cEx (r : ℚ) : esat_rho cEx r = 0 := by
  simp [esat_rho, cEx]

lemma P_rhoe_cEx (r e : ℚ) : P_rhoe cEx r e = 5 := by
  simp [P_rhoe, interpolateTable, cEx]

lemma e_rhoP_cEx : e_rhoP cEx 1 5 = 1 := by
  unfold e_rhoP
  rw [esat_rho_cEx]
  have hz : ∀ t : ℚ, (fun x => P_rhoe cEx 1 x - 5) t = 0 := by
    intro t; simp [P_rhoe_cEx]
  unfold rootFunc
  rw [hz]
  have hDe : cEx.De 0 = 1 := rfl
  rw [hDe]
  rw [show (20 : ℕ) = 19 + 1 from rfl]
  rw [rootFuncLoop_stop _ _ _ _ _ (by norm_num)]
  norm_num

/-- C7 (counterexample): on the grid of `cEx`, the point `(ρ, e) = (1, 2)`
is the lattice node `(i, j) = (0, 1)` (density `Rho[0] = 1`, energy
deviation `e - e_sat(1) = 2 = De[1]`), so `P = P_rhoe(1, 2) = 5` is a
tabulated value at a lattice node; yet `e_rhoP(1, P)` returns the seed
`e_sat(1) + De[0] = 1`, which differs from the original `e = 2` by `1`, far
more than the tolerance `1e-9` relative to the seed: the round-trip does
not recover `e`. -/
theorem roundtrip_inversion_counterexample :
    P_rhoe cEx 1 2 = 5 ∧
    ¬ |e_rhoP cEx 1 (P_rhoe cEx 1 2) - 2| ≤
        1 / 1000000000 * (esat_rho cEx 1 + cEx.De 0) := by
  refine ⟨P_rhoe_cEx 1 2, ?_⟩
  rw [P_rhoe_cEx, e_rhoP_cEx, esat_rho_cEx]
  have hDe : cEx.De 0 = 1 := rfl
  rw [hDe]
  rw [show (1 : ℚ) - 2 = -1 by norm_num, abs_neg, abs_one]
  norm_num

/-- C7 (amended): what the root finder controls is the pressure residual,
not the distance to any original energy.  Whenever the inner solve of
`e_rhoP(ρ, P)` stops before the 20-iteration cap (i.e. stops by meeting the
convergence test), the returned energy `e'` satisfies
`|P_rhoe(ρ, e') − P| ≤ 1e-9 * x0_cur`, where `x0_cur` is the final value of
the solver's mutated seed variable; the original `e` itself need not be
recovered (see the counterexample). -/
theorem e_rhoP_residual_tolerance_bound (c : CTableFluid) (rhoi Pi : ℚ)
    (h : (rootFuncS (esat_rho c rhoi + c.De 0)
            (fun x => P_rhoe c rhoi x - Pi)).1 < 20) :
    |P_rhoe c rhoi (e_rhoP c rhoi Pi) - Pi| ≤
      1 / 1000000000 *
        (rootFuncS (esat_rho c rhoi + c.De 0)
          (fun x => P_rhoe c rhoi x - Pi)).2.2.2 := by
  have h3 := rootFuncLoopS_converged (fun x => P_rhoe c rhoi x - Pi) 20
    (esat_rho c rhoi + c.De 0)
    ((fun x => P_rhoe c rhoi x - Pi) (esat_rho c rhoi + c.De 0))
    (101 / 100 * (esat_rho c rhoi + c.De 0)) h
  have h2 := rootFuncLoopS_y_invariant (fun x => P_rhoe c rhoi x - Pi) 20
    (esat_rho c rhoi + c.De 0)
    ((fun x => P_rhoe c rhoi x - Pi) (esat_rho c rhoi + c.De 0))
    (101 / 100 * (esat_rho c rhoi + c.De 0)) rfl
  have h1 := rootFuncLoopS_fst_eq (fun x => P_rhoe c rhoi x - Pi) 20
    (esat_rho c rhoi + c.De 0)
    ((fun x => P_rhoe c rhoi x - Pi) (esat_rho c rhoi + c.De 0))
    (101 / 100 * (esat_rho c rhoi + c.De 0))
  rw [h2, h1] at h3
  exact h3

/-- Witness for `e_rhoP_residual_tolerance_bound` at `c = cEx`, `ρ = 1`,
`P = 5`: the inner solve stops after 0 iterations and the residual bound
holds there. -/
theorem e_rhoP_residual_tolerance_bound_witness :
    (rootFuncS (esat_rho cEx 1 + cEx.De 0)
        (fun x => P_rhoe cEx 1 x - 5)).1 < 20 ∧
    |P_rhoe cEx 1 (e_rhoP cEx 1 5) - 5| ≤
      1 / 1000000000 *
        (rootFuncS (esat_rho cEx 1 + cEx.De 0)
          (fun x => P_rhoe cEx 1 x - 5)).2.2.2 := by
  have hseed : esat_rho cEx 1 + cEx.De 0 = 1 := by
    rw [esat_rho_cEx]
    have hDe : cEx.De 0 = 1 := rfl
    rw [hDe]; norm_num
  have hlt : (rootFuncS (esat_rho cEx 1 + cEx.De 0)
      (fun x => P_rhoe cEx 1 x - 5)).1 < 20 := by
    rw [hseed]
    unfold rootFuncS
    have hf1 : (fun x => P_rhoe cEx 1 x - 5) (1 : ℚ) = 0 := by
      simp [P_rhoe_cEx]
    rw [hf1]
    rw [show (20 : ℕ) = 19 + 1 from rfl]
    rw [rootFuncLoopS_stop _ _ _ _ _ (by norm_num)]
    norm_num
  exact ⟨hlt, e_rhoP_residual_tolerance_bound cEx 1 5 hlt⟩

/-! ## Claims C3 and C4: the bilinear interpolation -/

lemma clampIdx_nonneg (N : ℕ) (hN : 2 ≤ N) (i : ℤ) : 0 ≤ clampIdx N i := by
  unfold clampIdx
  have h2 : (0 : ℤ) ≤ (N : ℤ) - 2 := by omega
  exact le_min (le_max_left 0 i) h2

lemma clampIdx_le (N : ℕ) (i : ℤ) : clampIdx N i ≤ (N : ℤ) - 2 :=
  min_le_right _ _

lemma flatAccess_bounds (Nx Ny : ℕ) (hNy : 2 ≤ Ny) (a b : ℤ)
    (ha0 : 0 ≤ a) (ha : a ≤ (Nx : ℤ) - 2) (hb0 : 0 ≤ b) (hb : b ≤ (Ny : ℤ) - 2) :
    (0 ≤ a * Ny + b ∧ a * Ny + b ≤ (Nx : ℤ) * Ny - 1) ∧
    (0 ≤ a * Ny + (b + 1) ∧ a * Ny + (b + 1) ≤ (Nx : ℤ) * Ny - 1) ∧
    (0 ≤ (a + 1) * Ny + b ∧ (a + 1) * Ny + b ≤ (Nx : ℤ) * Ny - 1) ∧
    (0 ≤ (a + 1) * Ny + (b + 1) ∧ (a + 1) * Ny + (b + 1) ≤ (Nx : ℤ) * Ny - 1) := by
  have hy0 : (0 : ℤ) ≤ (Ny : ℤ) := by positivity
  have h1 : a * (Ny : ℤ) ≤ ((Nx : ℤ) - 1) * Ny :=
    mul_le_mul_of_nonneg_right (by omega) hy0
  have h2 : (a + 1) * (Ny : ℤ) ≤ ((Nx : ℤ) - 1) * Ny :=
    mul_le_mul_of_nonneg_right (by omega) hy0
  have h3 : ((Nx : ℤ) - 1) * Ny = (Nx : ℤ) * Ny - Ny := by ring
  have ha1 : 0 ≤ a * (Ny : ℤ) := mul_nonneg ha0 hy0
  have ha2 : 0 ≤ (a + 1) * (Ny : ℤ) := mul_nonneg (by omega) hy0
  have hNy2 : (2 : ℤ) ≤ (Ny : ℤ) := by omega
  refine ⟨⟨?_, ?_⟩, ⟨?_, ?_⟩, ⟨?_, ?_⟩, ⟨?_, ?_⟩⟩ <;> linarith

/-- C3: for every real query point `(xi, yi)` — including points outside the
grid bounds — the floor indices computed by `interpolateTable` are clamped
into `[0, Nx-2]` and `[0, Ny-2]`, and hence all four flattened accesses
`z[ixl*Ny+iyl]`, `z[ixl*Ny+iyr]`, `z[ixr*Ny+iyl]`, `z[ixr*Ny+iyr]`
(`ixr = ixl+1`, `iyr = iyl+1`) lie within `[0, Nx*Ny-1]`.  Out-of-range
input flows through the same total interpolation formula (linear
extrapolation); no error path exists. -/
theorem interpolateTable_accesses_in_bounds (c : CTableFluid)
    (hNx : 2 ≤ c.Nx) (hNy : 2 ≤ c.Ny) (xi yi : ℚ) (x y : Fin 2 → ℚ) :
    0 ≤ clampIdx c.Nx (truncToInt (fracIx xi x c.Nx)) ∧
    clampIdx c.Nx (truncToInt (fracIx xi x c.Nx)) ≤ (c.Nx : ℤ) - 2 ∧
    0 ≤ clampIdx c.Ny (truncToInt (fracIx yi y c.Ny)) ∧
    clampIdx c.Ny (truncToInt (fracIx yi y c.Ny)) ≤ (c.Ny : ℤ) - 2 ∧
    (0 ≤ clampIdx c.Nx (truncToInt (fracIx xi x c.Nx)) * c.Ny +
        clampIdx c.Ny (truncToInt (fracIx yi y c.Ny)) ∧
      clampIdx c.Nx (truncToInt (fracIx xi x c.Nx)) * c.Ny +
        clampIdx c.Ny (truncToInt (fracIx yi y c.Ny)) ≤ (c.Nx : ℤ) * c.Ny - 1) ∧
    (0 ≤ clampIdx c.Nx (truncToInt (fracIx xi x c.Nx)) * c.Ny +
        (clampIdx c.Ny (truncToInt (fracIx yi y c.Ny)) + 1) ∧
      clampIdx c.Nx (truncToInt (fracIx xi x c.Nx)) * c.Ny +
        (clampIdx c.Ny (truncToInt (fracIx yi y c.Ny)) + 1) ≤
          (c.Nx : ℤ) * c.Ny - 1) ∧
    (0 ≤ (clampIdx c.Nx (truncToInt (fracIx xi x c.Nx)) + 1) * c.Ny +
        clampIdx c.Ny (truncToInt (fracIx yi y c.Ny)) ∧
      (clampIdx c.Nx (truncToInt (fracIx xi x c.Nx)) + 1) * c.Ny +
        clampIdx c.Ny (truncToInt (fracIx yi y c.Ny)) ≤ (c.Nx : ℤ) * c.Ny - 1) ∧
    (0 ≤ (clampIdx c.Nx (truncToInt (fracIx xi x c.Nx)) + 1) * c.Ny +
        (clampIdx c.Ny (truncToInt (fracIx yi y c.Ny)) + 1) ∧
      (clampIdx c.Nx (truncToInt (fracIx xi x c.Nx)) + 1) * c.Ny +
        (clampIdx c.Ny (truncToInt (fracIx yi y c.Ny)) + 1) ≤
          (c.Nx : ℤ) * c.Ny - 1) := by
  have hx0 := clampIdx_nonneg c.Nx hNx (truncToInt (fracIx xi x c.Nx))
  have hx1 := clampIdx_le c.Nx (truncToInt (fracIx xi x c.Nx))
  have hy0 := clampIdx_nonneg c.Ny hNy (truncToInt (fracIx yi y c.Ny))
  have hy1 := clampIdx_le c.Ny (truncToInt (fracIx yi y c.Ny))
  obtain ⟨p1, p2, p3, p4⟩ :=
    flatAccess_bounds c.Nx c.Ny hNy _ _ hx0 hx1 hy0 hy1
  exact ⟨hx0, hx1, hy0, hy1, p1, p2, p3, p4⟩

/-- Witness for `interpolateTable_accesses_in_bounds` on the concrete table
`cEx` at the out-of-grid query `(7, -3)`. -/
theorem interpolateTable_accesses_in_bounds_witness :
    2 ≤ cEx.Nx ∧ 2 ≤ cEx.Ny ∧
    (0 ≤ clampIdx cEx.Nx (truncToInt (fracIx 7 cEx.Rho cEx.Nx)) ∧
    clampIdx cEx.Nx (truncToInt (fracIx 7 cEx.Rho cEx.Nx)) ≤ (cEx.Nx : ℤ) - 2 ∧
    0 ≤ clampIdx cEx.Ny (truncToInt (fracIx (-3) cEx.Rho cEx.Ny)) ∧
    clampIdx cEx.Ny (truncToInt (fracIx (-3) cEx.Rho cEx.Ny)) ≤ (cEx.Ny : ℤ) - 2 ∧
    (0 ≤ clampIdx cEx.Nx (truncToInt (fracIx 7 cEx.Rho cEx.Nx)) * cEx.Ny +
        clampIdx cEx.Ny (truncToInt (fracIx (-3) cEx.Rho cEx.Ny)) ∧
      clampIdx cEx.Nx (truncToInt (fracIx 7 cEx.Rho cEx.Nx)) * cEx.Ny +
        clampIdx cEx.Ny (truncToInt (fracIx (-3) cEx.Rho cEx.Ny)) ≤
          (cEx.Nx : ℤ) * cEx.Ny - 1) ∧
    (0 ≤ clampIdx cEx.Nx (truncToInt (fracIx 7 cEx.Rho cEx.Nx)) * cEx.Ny +
        (clampIdx cEx.Ny (truncToInt (fracIx (-3) cEx.Rho cEx.Ny)) + 1) ∧
      clampIdx cEx.Nx (truncToInt (fracIx 7 cEx.Rho cEx.Nx)) * cEx.Ny +
        (clampIdx cEx.Ny (truncToInt (fracIx (-3) cEx.Rho cEx.Ny)) + 1) ≤
          (cEx.Nx : ℤ) * cEx.Ny - 1) ∧
    (0 ≤ (clampIdx cEx.Nx (truncToInt (fracIx 7 cEx.Rho cEx.Nx)) + 1) * cEx.Ny +
        clampIdx cEx.Ny (truncToInt (fracIx (-3) cEx.Rho cEx.Ny)) ∧
      (clampIdx cEx.Nx (truncToInt (fracIx 7 cEx.Rho cEx.Nx)) + 1) * cEx.Ny +
        clampIdx cEx.Ny (truncToInt (fracIx (-3) cEx.Rho cEx.Ny)) ≤
          (cEx.Nx : ℤ) * cEx.Ny - 1) ∧
    (0 ≤ (clampIdx cEx.Nx (truncToInt (fracIx 7 cEx.Rho cEx.Nx)) + 1) * cEx.Ny +
        (clampIdx cEx.Ny (truncToInt (fracIx (-3) cEx.Rho cEx.Ny)) + 1) ∧
      (clampIdx cEx.Nx (truncToInt (fracIx 7 cEx.Rho cEx.Nx)) + 1) * cEx.Ny +
        (clampIdx cEx.Ny (truncToInt (fracIx (-3) cEx.Rho cEx.Ny)) + 1) ≤
          (cEx.Nx : ℤ) * cEx.Ny - 1)) :=
  ⟨by decide, by decide,
   interpolateTable_accesses_in_bounds cEx (by decide) (by decide)
     7 (-3) cEx.Rho cEx.Rho⟩

lemma truncToInt_natCast (i : ℕ) : truncToInt (i : ℚ) = i := by
  unfold truncToInt
  rw [if_neg (by push_neg; positivity)]
  exact Int.floor_natCast i

lemma fracIx_node (x : Fin 2 → ℚ) (N : ℕ) (i : ℕ) (hN : 2 ≤ N)
    (hx : x 0 < x 1) :
    fracIx (x 0 + i * (x 1 - x 0) / ((N : ℚ) - 1)) x N = i := by
  unfold fracIx
  have hd : x 1 - x 0 ≠ 0 := sub_ne_zero.mpr hx.ne'
  have h2 : (2 : ℚ) ≤ (N : ℚ) := by exact_mod_cast hN
  have hn : (N : ℚ) - 1 ≠ 0 := by intro hc; nlinarith
  field_simp
  ring

lemma clampIdx_natCast_le (N : ℕ) (i : ℕ) (h : (i : ℤ) ≤ (N : ℤ) - 2) :
    clampIdx N (i : ℤ) = (i : ℤ) := by
  unfold clampIdx
  rw [max_eq_right (by positivity)]
  exact min_eq_left h

lemma clampIdx_natCast_last (N : ℕ) (i : ℕ) (h : (N : ℤ) - 2 ≤ (i : ℤ)) :
    clampIdx N (i : ℤ) = (N : ℤ) - 2 := by
  unfold clampIdx
  rw [max_eq_right (by positivity)]
  exact min_eq_right h

/-- C4: querying `interpolateTable` exactly at the grid node
`(x[0] + i*(x[1]-x[0])/(Nx-1), y[0] + j*(y[1]-y[0])/(Ny-1))` returns the
stored value `z[i*Ny+j]` exactly (in the exact-arithmetic model), for every
node `0 ≤ i ≤ Nx-1`, `0 ≤ j ≤ Ny-1` — including the last row/column, where
the clamped floor index is `Nx-2` / `Ny-2` and the interpolation weight is
exactly `1`. -/
theorem interpolateTable_exact_at_nodes (c : CTableFluid) (x y : Fin 2 → ℚ)
    (z : ℤ → ℚ) (i j : ℕ) (hNx : 2 ≤ c.Nx) (hNy : 2 ≤ c.Ny)
    (hi : i < c.Nx) (hj : j < c.Ny) (hx : x 0 < x 1) (hy : y 0 < y 1) :
    interpolateTable c (x 0 + i * (x 1 - x 0) / ((c.Nx : ℚ) - 1))
      (y 0 + j * (y 1 - y 0) / ((c.Ny : ℚ) - 1)) x y z =
      z ((i : ℤ) * c.Ny + j) := by
  have hix := fracIx_node x c.Nx i hNx hx
  have hiy := fracIx_node y c.Ny j hNy hy
  simp only [interpolateTable]
  rw [hix, hiy, truncToInt_natCast, truncToInt_natCast]
  rcases le_or_lt (i : ℤ) ((c.Nx : ℤ) - 2) with hxc | hxc
  · rcases le_or_lt (j : ℤ) ((c.Ny : ℤ) - 2) with hyc | hyc
    · rw [clampIdx_natCast_le c.Nx i hxc, clampIdx_natCast_le c.Ny j hyc]
      have wx : (i : ℚ) - ((i : ℤ) : ℚ) = 0 := by push_cast; ring
      have wy : (j : ℚ) - ((j : ℤ) : ℚ) = 0 := by push_cast; ring
      rw [wx, wy]
      ring
    · have hjeq : (j : ℤ) = (c.Ny : ℤ) - 1 := by omega
      rw [clampIdx_natCast_le c.Nx i hxc, clampIdx_natCast_last c.Ny j (by omega)]
      have wx : (i : ℚ) - ((i : ℤ) : ℚ) = 0 := by push_cast; ring
      have wy : (j : ℚ) - (((c.Ny : ℤ) - 2 : ℤ) : ℚ) = 1 := by
        have : ((j : ℤ) : ℚ) = (((c.Ny : ℤ) - 1 : ℤ) : ℚ) := by exact_mod_cast hjeq
        push_cast at this ⊢
        linarith
      rw [wx, wy]
      have harg : ((c.Ny : ℤ) - 2) + 1 = (j : ℤ) := by omega
      rw [harg]
      ring
  · have hieq : (i : ℤ) = (c.Nx : ℤ) - 1 := by omega
    rcases le_or_lt (j : ℤ) ((c.Ny : ℤ) - 2) with hyc | hyc
    · rw [clampIdx_natCast_last c.Nx i (by omega), clampIdx_natCast_le c.Ny j hyc]
      have wx : (i : ℚ) - (((c.Nx : ℤ) - 2 : ℤ) : ℚ) = 1 := by
        have : ((i : ℤ) : ℚ) = (((c.Nx : ℤ) - 1 : ℤ) : ℚ) := by exact_mod_cast hieq
        push_cast at this ⊢
        linarith
      have wy : (j : ℚ) - ((j : ℤ) : ℚ) = 0 := by push_cast; ring
      rw [wx, wy]
      have harg : ((c.Nx : ℤ) - 2) + 1 = (i : ℤ) := by omega
      rw [harg]
      ring
    · have hjeq : (j : ℤ) = (c.Ny : ℤ) - 1 := by omega
      rw [clampIdx_natCast_last c.Nx i (by omega),
        clampIdx_natCast_last c.Ny j (by omega)]
      have wx : (i : ℚ) - (((c.Nx : ℤ) - 2 : ℤ) : ℚ) = 1 := by
        have : ((i : ℤ) : ℚ) = (((c.Nx : ℤ) - 1 : ℤ) : ℚ) := by exact_mod_cast hieq
        push_cast at this ⊢
        linarith
      have wy : (j : ℚ) - (((c.Ny : ℤ) - 2 : ℤ) : ℚ) = 1 := by
        have : ((j : ℤ) : ℚ) = (((c.Ny : ℤ) - 1 : ℤ) : ℚ) := by exact_mod_cast hjeq
        push_cast at this ⊢
        linarith
      rw [wx, wy]
      have hargx : ((c.Nx : ℤ) - 2) + 1 = (i : ℤ) := by omega
      have hargy : ((c.Ny : ℤ) - 2) + 1 = (j : ℤ) := by omega
      rw [hargx, hargy]
      ring

/-- Witness for `interpolateTable_exact_at_nodes` on `cEx` at the last node
`(i, j) = (1, 1)` of the 2×2 grid (both indices clamped). -/
theorem interpolateTable_exact_at_nodes_witness :
    2 ≤ cEx.Nx ∧ 2 ≤ cEx.Ny ∧ (1 : ℕ) < cEx.Nx ∧ (1 : ℕ) < cEx.Ny ∧
    cEx.Rho 0 < cEx.Rho 1 ∧
    interpolateTable cEx
      (cEx.Rho 0 + ((1 : ℕ) : ℚ) * (cEx.Rho 1 - cEx.Rho 0) / ((cEx.Nx : ℚ) - 1))
      (cEx.Rho 0 + ((1 : ℕ) : ℚ) * (cEx.Rho 1 - cEx.Rho 0) / ((cEx.Ny : ℚ) - 1))
      cEx.Rho cEx.Rho cEx.P_rhoDe =
      cEx.P_rhoDe (((1 : ℕ) : ℤ) * cEx.Ny + ((1 : ℕ) : ℤ)) :=
  ⟨by decide, by decide, by decide, by decide, by norm_num [cEx],
   interpolateTable_exact_at_nodes cEx cEx.Rho cEx.Rho cEx.P_rhoDe 1 1
     (by decide) (by decide) (by decide) (by decide)
     (by norm_num [cEx]) (by norm_num [cEx])⟩

/-! ## Claims C5, C6, C8, C10: accessors and state setters -/

/-- C5: every one of the eleven property accessors evaluates the table at
the shifted energy coordinate `De = e - e_sat(ρ)` (never at the raw `e`),
where `e_sat(ρ) = c0 + c1*ρ + c2*pow(ρ,1/2) + c3*pow(ρ,1/3)` with the
coefficients `coefesat` and the external power functions. -/
theorem accessors_use_energy_shift (c : CTableFluid) (rhoi ei : ℚ) :
    P_rhoe c rhoi ei =
      interpolateTable c rhoi (ei - esat_rho c rhoi) c.Rho c.De c.P_rhoDe ∧
    T_rhoe c rhoi ei =
      interpolateTable c rhoi (ei - esat_rho c rhoi) c.Rho c.De c.T_rhoDe ∧
    h_rhoe c rhoi ei =
      interpolateTable c rhoi (ei - esat_rho c rhoi) c.Rho c.De c.h_rhoDe ∧
    s_rhoe c rhoi ei =
      interpolateTable c rhoi (ei - esat_rho c rhoi) c.Rho c.De c.s_rhoDe ∧
    cv_rhoe c rhoi ei =
      interpolateTable c rhoi (ei - esat_rho c rhoi) c.Rho c.De c.cv_rhoDe ∧
    cp_rhoe c rhoi ei =
      interpolateTable c rhoi (ei - esat_rho c rhoi) c.Rho c.De c.cp_rhoDe ∧
    a2_rhoe c rhoi ei =
      interpolateTable c rhoi (ei - esat_rho c rhoi) c.Rho c.De c.a2_rhoDe ∧
    dPdrho_e_rhoe c rhoi ei =
      interpolateTable c rhoi (ei - esat_rho c rhoi) c.Rho c.De c.dPdrho_e_rhoDe ∧
    dPde_rho_rhoe c rhoi ei =
      interpolateTable c rhoi (ei - esat_rho c rhoi) c.Rho c.De c.dPde_rho_rhoDe ∧
    dTdrho_e_rhoe c rhoi ei =
      interpolateTable c rhoi (ei - esat_rho c rhoi) c.Rho c.De c.dTdrho_e_rhoDe ∧
    dTde_rho_rhoe c rhoi ei =
      interpolateTable c rhoi (ei - esat_rho c rhoi) c.Rho c.De c.dTde_rho_rhoDe ∧
    esat_rho c rhoi = c.coefesat 0 + c.coefesat 1 * rhoi +
      c.coefesat 2 * c.powHalf rhoi + c.coefesat 3 * c.powThird rhoi :=
  ⟨rfl, rfl, rfl, rfl, rfl, rfl, rfl, rfl, rfl, rfl, rfl, rfl⟩

/-- C6: `SetTDState_PT(P, T)` obtains `ρ* = rho_PT(P, T)` by an outer
root-find over density seeded at `Rho[0]` with residual
`T_rhoe(ρ, e_rhoP(ρ, P)) - T`, then runs the `(P, ρ)` path, and the
resulting fluid-state record is identical to the one produced by calling
`SetTDState_rhoe(ρ*, e_rhoP(ρ*, P))` directly — the same code path is
reused. -/
theorem SetTDState_PT_reuses_rhoe_path (c : CTableFluid) (s : FluidState)
    (P T : ℚ) :
    SetTDState_PT c s P T =
      SetTDState_rhoe c s (rho_PT c P T) (e_rhoP c (rho_PT c P T) P) ∧
    rho_PT c P T =
      rootFunc (c.Rho 0) (fun x => T_rhoe c x (e_rhoP c x P) - T) :=
  ⟨rfl, rfl⟩

/-- C8: `SetTDState_rhoe` overwrites `Density`, `StaticEnergy`, `Pressure`,
`Temperature`, `SoundSpeed2`, `Cv`, `Cp` and the four partial derivatives
unconditionally, and writes `Entropy` exactly when the `ComputeEntropy`
flag was set at construction — otherwise the `Entropy` field keeps the
value it had in the previous state `s`. -/
theorem SetTDState_rhoe_field_updates (c : CTableFluid) (s : FluidState)
    (rho e : ℚ) :
    (SetTDState_rhoe c s rho e).Density = rho ∧
    (SetTDState_rhoe c s rho e).StaticEnergy = e ∧
    (SetTDState_rhoe c s rho e).Pressure = P_rhoe c rho e ∧
    (SetTDState_rhoe c s rho e).Temperature = T_rhoe c rho e ∧
    (SetTDState_rhoe c s rho e).SoundSpeed2 = a2_rhoe c rho e ∧
    (SetTDState_rhoe c s rho e).dPdrho_e = dPdrho_e_rhoe c rho e ∧
    (SetTDState_rhoe c s rho e).dPde_rho = dPde_rho_rhoe c rho e ∧
    (SetTDState_rhoe c s rho e).dTdrho_e = dTdrho_e_rhoe c rho e ∧
    (SetTDState_rhoe c s rho e).dTde_rho = dTde_rho_rhoe c rho e ∧
    (SetTDState_rhoe c s rho e).Cv = cv_rhoe c rho e ∧
    (SetTDState_rhoe c s rho e).Cp = cp_rhoe c rho e ∧
    (SetTDState_rhoe c s rho e).Entropy =
      (if c.ComputeEntropy then s_rhoe c rho e else s.Entropy) :=
  ⟨rfl, rfl, rfl, rfl, rfl, rfl, rfl, rfl, rfl, rfl, rfl, rfl⟩

/-- C10: `SetEnergy_Prho(P, rho)` writes only the `StaticEnergy` field of
the fluid-state record (with `e_rhoP(rho, P)`); all eleven other fields are
left unchanged. -/
theorem SetEnergy_Prho_writes_only_StaticEnergy (c : CTableFluid)
    (s : FluidState) (P rho : ℚ) :
    (SetEnergy_Prho c s P rho).StaticEnergy = e_rhoP c rho P ∧
    (SetEnergy_Prho c s P rho).Density = s.Density ∧
    (SetEnergy_Prho c s P rho).Pressure = s.Pressure ∧
    (SetEnergy_Prho c s P rho).Temperature = s.Temperature ∧
    (SetEnergy_Prho c s P rho).Entropy = s.Entropy ∧
    (SetEnergy_Prho c s P rho).SoundSpeed2 = s.SoundSpeed2 ∧
    (SetEnergy_Prho c s P rho).dPdrho_e = s.dPdrho_e ∧
    (SetEnergy_Prho c s P rho).dPde_rho = s.dPde_rho ∧
    (SetEnergy_Prho c s P rho).dTdrho_e = s.dTdrho_e ∧
    (SetEnergy_Prho c s P rho).dTde_rho = s.dTde_rho ∧
    (SetEnergy_Prho c s P rho).Cv = s.Cv ∧
    (SetEnergy_Prho c s P rho).Cp = s.Cp :=
  ⟨rfl, rfl, rfl, rfl, rfl, rfl, rfl, rfl, rfl, rfl, rfl, rfl⟩

/-! ## Claim C9: the degenerate secant step under IEEE-754 semantics

`FVal` refines the exact-rational model of `su2double`: a value is either a
finite rational, a signed infinity (`inf true` is `+∞`) or NaN.  The
arithmetic below follows the IEEE-754 rules for the default rounding mode,
except that rounding itself is not modelled (finite results are exact) and
every zero is treated as `+0` (the sign of zero never matters on the values
arising here, since `x - x = +0` in IEEE-754 round-to-nearest). -/

/-- An IEEE-754-style `double` value: exact finite rational, signed
infinity, or NaN. -/
inductive FVal where
  | fin : ℚ → FVal
  | inf : Bool → FVal
  | nan : FVal
deriving DecidableEq

/-- IEEE-style subtraction: `∞ - ∞` of equal signs is NaN; NaN propagates. -/
def fsub : FVal → FVal → FVal
  | FVal.nan, _ => FVal.nan
  | _, FVal.nan => FVal.nan
  | FVal.fin a, FVal.fin b => FVal.fin (a - b)
  | FVal.fin _, FVal.inf s => FVal.inf (!s)
  | FVal.inf s, FVal.fin _ => FVal.inf s
  | FVal.inf s, FVal.inf t => if s = t then FVal.nan else FVal.inf s

/-- IEEE-style multiplication: `0 * ∞` is NaN; signs multiply; NaN
propagates. -/
def fmul : FVal → FVal → FVal
  | FVal.nan, _ => FVal.nan
  | _, FVal.nan => FVal.nan
  | FVal.fin a, FVal.fin b => FVal.fin (a * b)
  | FVal.fin a, FVal.inf s =>
      if a = 0 then FVal.nan else if 0 < a then FVal.inf s else FVal.inf (!s)
  | FVal.inf s, FVal.fin b =>
      if b = 0 then FVal.nan else if 0 < b then FVal.inf s else FVal.inf (!s)
  | FVal.inf s, FVal.inf t =>
      if s = t then FVal.inf true else FVal.inf false

/-- IEEE-style division: a nonzero finite (or infinite) value divided by
zero gives a signed infinity (zero counts as `+0`); `0/0` and `∞/∞` are
NaN; a finite value divided by `∞` is zero; NaN propagates. -/
def fdiv : FVal → FVal → FVal
  | FVal.nan, _ => FVal.nan
  | _, FVal.nan => FVal.nan
  | FVal.fin a, FVal.fin b =>
      if b = 0 then
        (if a = 0 then FVal.nan else if 0 < a then FVal.inf true else FVal.inf false)
      else FVal.fin (a / b)
  | FVal.fin _, FVal.inf _ => FVal.fin 0
  | FVal.inf s, FVal.fin b =>
      if b = 0 then FVal.inf s else if 0 < b then FVal.inf s else FVal.inf (!s)
  | FVal.inf _, FVal.inf _ => FVal.nan

/-- IEEE-style absolute value. -/
def fabs : FVal → FVal
  | FVal.fin a => FVal.fin |a|
  | FVal.inf _ => FVal.inf true
  | FVal.nan => FVal.nan

/-- IEEE-style `<`: every comparison involving NaN is false. -/
def flt : FVal → FVal → Bool
  | FVal.nan, _ => false
  | _, FVal.nan => false
  | FVal.fin a, FVal.fin b => decide (a < b)
  | FVal.fin _, FVal.inf s => s
  | FVal.inf s, FVal.fin _ => !s
  | FVal.inf s, FVal.inf t => !s && t

/-- Whether an `FVal` is a finite number (not `±∞`, not NaN). -/
def isFinite : FVal → Bool
  | FVal.fin _ => true
  | _ => false

/-- The `while` loop of `CTableFluid::rootFunc` under the IEEE-754-style
value model `FVal` (condition `abs(y) > 1e-9*x0`, i.e. `1e-9*x0 < abs(y)`,
which is false whenever either side is NaN). -/
def rootFuncFLoop (f : FVal → FVal) (fuel : ℕ) (x y x0 : FVal) : FVal :=
  match fuel with
  | 0 => x
  | fuel' + 1 =>
    if flt (fmul (FVal.fin (1 / 1000000000)) x0) (fabs y) then
      rootFuncFLoop f fuel' x0 (f x0)
        (fsub x0 (fdiv (fmul (f x0) (fsub x x0)) (fsub y (f x0))))
    else x

/-- `CTableFluid::rootFunc` under the IEEE-754-style value model `FVal`. -/
def rootFuncF (x0 : FVal) (f : FVal → FVal) : FVal :=
  rootFuncFLoop f 20 x0 (f x0) (fmul (FVal.fin (101 / 100)) x0)

lemma rootFuncFLoop_step (f : FVal → FVal) (fuel' : ℕ) (x y x0 : FVal)
    (h : flt (fmul (FVal.fin (1 / 1000000000)) x0) (fabs y) = true) :
    rootFuncFLoop f (fuel' + 1) x y x0 =
      rootFuncFLoop f fuel' x0 (f x0)
        (fsub x0 (fdiv (fmul (f x0) (fsub x x0)) (fsub y (f x0)))) := by
  simp only [rootFuncFLoop, h, if_true]

lemma rootFuncFLoop_stop (f : FVal → FVal) (fuel' : ℕ) (x y x0 : FVal)
    (h : flt (fmul (FVal.fin (1 / 1000000000)) x0) (fabs y) = false) :
    rootFuncFLoop f (fuel' + 1) x y x0 = x := by
  simp only [rootFuncFLoop, h, Bool.false_eq_true, if_false]

/-- C9: there exist a seed and a residual function (`x0 = 1`,
`f ≡ -1`) for which the first loop iteration of `rootFunc` sees two equal
consecutive residual evaluations (`dy = f(x) - f(1.01*x) = 0`) while the
tolerance is not yet met (`1e-9 * (1.01*x0) < |f(x0)|`), so the secant
update divides by zero; under IEEE-754 semantics the iteration then
produces a non-finite value that is returned to the caller — the code has
no guard for this case. -/
theorem rootFunc_degenerate_secant_nonfinite :
    ∃ (x0 : FVal) (f : FVal → FVal),
      flt (fmul (FVal.fin (1 / 1000000000)) (fmul (FVal.fin (101 / 100)) x0))
          (fabs (f x0)) = true ∧
      fsub (f x0) (f (fmul (FVal.fin (101 / 100)) x0)) = FVal.fin 0 ∧
      isFinite (rootFuncF x0 f) = false := by
  refine ⟨FVal.fin 1, fun _ => FVal.fin (-1), ?_, ?_, ?_⟩
  · norm_num [fmul, fabs, flt, abs_neg, abs_one]
  · norm_num [fsub]
  · have hx0m : fmul (FVal.fin ((101 : ℚ) / 100)) (FVal.fin 1) = FVal.fin (101 / 100) := by
      norm_num [fmul]
    have c1 : flt (fmul (FVal.fin ((1 : ℚ) / 1000000000)) (FVal.fin ((101 : ℚ) / 100)))
        (fabs (FVal.fin (-1 : ℚ))) = true := by
      norm_num [fmul, fabs, flt, abs_neg, abs_one]
    have hupd1 : fsub (FVal.fin ((101 : ℚ) / 100))
        (fdiv (fmul (FVal.fin (-1 : ℚ)) (fsub (FVal.fin 1) (FVal.fin ((101 : ℚ) / 100))))
          (fsub (FVal.fin (-1 : ℚ)) (FVal.fin (-1 : ℚ)))) = FVal.inf false := by
      norm_num [fsub, fmul, fdiv]
    have c2 : flt (fmul (FVal.fin ((1 : ℚ) / 1000000000)) (FVal.inf false))
        (fabs (FVal.fin (-1 : ℚ))) = true := by
      norm_num [fmul, fabs, flt]
    have hupd2 : fsub (FVal.inf false)
        (fdiv (fmul (FVal.fin (-1 : ℚ)) (fsub (FVal.fin ((101 : ℚ) / 100)) (FVal.inf false)))
          (fsub (FVal.fin (-1 : ℚ)) (FVal.fin (-1 : ℚ)))) = FVal.nan := by
      norm_num [fsub, fmul, fdiv]
    have c3 : flt (fmul (FVal.fin ((1 : ℚ) / 1000000000)) FVal.nan)
        (fabs (FVal.fin (-1 : ℚ))) = false := by
      norm_num [fmul, fabs, flt]
    show isFinite
      (rootFuncFLoop (fun _ : FVal => FVal.fin (-1 : ℚ)) 20 (FVal.fin 1)
        (FVal.fin (-1 : ℚ)) (fmul (FVal.fin ((101 : ℚ) / 100)) (FVal.fin 1))) = false
    rw [hx0m]
    rw [show (20 : ℕ) = 19 + 1 from rfl,
      rootFuncFLoop_step (fun _ : FVal => FVal.fin (-1 : ℚ)) 19 (FVal.fin 1)
        (FVal.fin (-1 : ℚ)) (FVal.fin ((101 : ℚ) / 100)) c1]
    rw [hupd1]
    rw [show (19 : ℕ) = 18 + 1 from rfl,
      rootFuncFLoop_step (fun _ : FVal => FVal.fin (-1 : ℚ)) 18
        (FVal.fin ((101 : ℚ) / 100)) (FVal.fin (-1 : ℚ)) (FVal.inf false) c2]
    rw [hupd2]
    rw [show (18 : ℕ) = 17 + 1 from rfl,
      rootFuncFLoop_stop (fun _ : FVal => FVal.fin (-1 : ℚ)) 17 (FVal.inf false)
        (FVal.fin (-1 : ℚ)) FVal.nan c3]
    rfl
